import Mathlib

/-!
Verification of the Mission Control task-board core.

Shallow embedding of the task data model and board logic of the
`mission-control` repository:

* task record and enums — `src/frontend/src/app/(protected)/dashboard/tasks/_components/types`
  and `src/db/init.sql`;
* board grouping, review sub-filters and drop handling — the `TaskBoard`
  component (`_components/create-task-dialog.tsx`, second document: grouping at
  lines 471–483, review sub-buckets at 552–581, drop handler at 505–521);
* optimistic move and patch body — `handleTaskMove` in `tasks/page.tsx`
  (lines 54–90) and `handleUpdateStatus` in `_components/task-detail.tsx`;
* poll refresh — `fetchTasks` in `tasks/page.tsx` (lines 26–45);
* repository operations (list / create / patch / delete) — the `/api/tasks`
  proxy routes together with the PostgREST + PostgreSQL behaviour they proxy
  to, which is external to the repository and is modelled from the spec where
  noted.

Timestamps (ISO-8601 strings in the code) are modelled as `Nat` instants;
the code only ever compares and stores them, so any linearly ordered model
is order-faithful.
-/

namespace MissionControl

/-- JSON value, the model of `jsonb` columns and of the open `metadata` bag
(`Record<string, unknown>` in the frontend types). Numbers are modelled as
integers: the board logic only ever asks for JavaScript truthiness, for which
only `0` vs non-`0` matters (NaN is ignored by this model). -/
inductive JsonVal where
  | null
  | bool (b : Bool)
  | num (n : Int)
  | str (s : String)
  | arr (elems : List JsonVal)
  | obj (fields : List (String × JsonVal))

/-- JavaScript ToBoolean on a present JSON value: `null`, `false`, `0` and the
empty string are falsy; arrays and objects are always truthy. -/
def jsTruthy : JsonVal → Bool
  | .null => false
  | .bool b => b
  | .num n => n != 0
  | .str s => s != ""
  | .arr _ => true
  | .obj _ => true

/-- Task priority enum, from `CREATE TYPE api.task_priority AS ENUM
('low', 'medium', 'high', 'critical')` in `src/db/init.sql`. -/
inductive TaskPriority where
  | low
  | medium
  | high
  | critical
deriving DecidableEq

/-- Position of a priority in the enum declaration order of `src/db/init.sql`;
PostgreSQL orders enum values by declaration order, so `critical` is largest. -/
def priorityRank : TaskPriority → Nat
  | .low => 0
  | .medium => 1
  | .high => 2
  | .critical => 3

/-- Task row, from the `Task` interface in the frontend types and the
`api.tasks` table of `src/db/init.sql`. The `status` field is kept as a
runtime string: the TypeScript union annotation is not enforced on data
arriving from JSON, and the board's grouping explicitly tolerates unknown
strings (`buckets[task.status] ?? buckets.inbox`). -/
structure Task where
  id : Nat
  title : String
  description : Option String := none
  status : String
  priority : TaskPriority := .medium
  agent_id : Option String := none
  due_at : Option Nat := none
  started_at : Option Nat := none
  completed_at : Option Nat := none
  tags : List String := []
  metadata : List (String × JsonVal) := []
  created_at : Nat := 0

/-- The four known status column keys of the board (the `columns` array of the
`TaskBoard` component). -/
inductive StatusKey where
  | inbox
  | in_progress
  | review
  | done
deriving DecidableEq

/-- Own property names of `Object.prototype` in JavaScript: for a status
string equal to one of these, the lookup `buckets[task.status]` finds the
inherited member through the prototype chain, so it is not nullish and the
`?? buckets.inbox` fallback does not trigger. -/
def protoProps : List String :=
  ["constructor", "hasOwnProperty", "isPrototypeOf", "propertyIsEnumerable",
   "toLocaleString", "toString", "valueOf", "__proto__",
   "__defineGetter__", "__defineSetter__", "__lookupGetter__", "__lookupSetter__"]

/-- Result of the JavaScript lookup `buckets[task.status] ?? buckets.inbox`
on the bucket object literal: one of the four own array properties, a
non-nullish member inherited from `Object.prototype` (not an array — pushing
onto it throws a TypeError), or `undefined`, in which case `??` falls back
to the inbox array. -/
inductive BucketRef where
  | own (k : StatusKey)
  | inherited
  | missing

/-- Exact semantics of `buckets[task.status]` on the object literal with own
keys inbox/in_progress/review/done: an own key selects its array, an
`Object.prototype` member name selects the inherited (non-array) member, and
any other string yields `undefined`. -/
def bucketLookup (s : String) : BucketRef :=
  if s = "inbox" then .own .inbox
  else if s = "in_progress" then .own .in_progress
  else if s = "review" then .own .review
  else if s = "done" then .own .done
  else if protoProps.contains s then .inherited
  else .missing

/-- Column a task is routed to on the non-throwing path of
`buckets[task.status] ?? buckets.inbox`: a known status selects its own
bucket, any other status falls back to `inbox`. This is the lookup
restricted to statuses that are not `Object.prototype` member names; for
those names the real lookup finds a non-nullish inherited value and the push
throws — the exact model is `bucketLookup` / `groupByStatusExact`, which
agrees with this one on prototype-safe inputs. -/
def bucketKey (s : String) : StatusKey :=
  if s = "in_progress" then .in_progress
  else if s = "review" then .review
  else if s = "done" then .done
  else .inbox

/-- The four bucket lists of the grouping `useMemo` (lines 471–483). -/
structure Buckets where
  inbox : List Task
  in_progress : List Task
  review : List Task
  done : List Task

/-- One step of the grouping `forEach`: push the task onto the end of the
bucket selected by `buckets[task.status] ?? buckets.inbox`. -/
def pushTask (b : Buckets) (t : Task) : Buckets :=
  match bucketKey t.status with
  | .inbox => { b with inbox := b.inbox ++ [t] }
  | .in_progress => { b with in_progress := b.in_progress ++ [t] }
  | .review => { b with review := b.review ++ [t] }
  | .done => { b with done := b.done ++ [t] }

/-- The grouping `useMemo` of `TaskBoard` on the non-throwing path: start
from four empty buckets and push every task in input order. Agrees with the
exact model `groupByStatusExact` whenever no status names an
`Object.prototype` member. -/
def groupByStatus (tasks : List Task) : Buckets :=
  tasks.foldl pushTask ⟨[], [], [], []⟩

/-- One step of the grouping `forEach` under the exact lookup semantics:
`none` models the TypeError thrown by `bucket.push(task)` when
`buckets[task.status]` found a non-array member inherited from
`Object.prototype`. -/
def pushTaskChecked (b : Buckets) (t : Task) : Option Buckets :=
  match bucketLookup t.status with
  | .own .inbox => some { b with inbox := b.inbox ++ [t] }
  | .own .in_progress => some { b with in_progress := b.in_progress ++ [t] }
  | .own .review => some { b with review := b.review ++ [t] }
  | .own .done => some { b with done := b.done ++ [t] }
  | .inherited => none
  | .missing => some { b with inbox := b.inbox ++ [t] }

/-- Exact model of the grouping `useMemo` (lines 471–483) including the
prototype-chain path of `buckets[task.status] ?? buckets.inbox`: `none`
models the TypeError that aborts the `forEach` (and the render) when a task
status names an `Object.prototype` member. -/
def groupByStatusExact (tasks : List Task) : Option Buckets :=
  tasks.foldlM pushTaskChecked ⟨[], [], [], []⟩

/-- Review-column sub-filter selector (`type ReviewBucket` in the board). -/
inductive ReviewBucket where
  | all
  | approval_needed
  | blocked

/-- Lookup of a key in the open metadata bag (`task.metadata?.review_reason`
reads the property, yielding `undefined` — here `none` — when absent). -/
def metaLookup (m : List (String × JsonVal)) (k : String) : Option JsonVal :=
  match m.find? (fun kv => kv.1 = k) with
  | some kv => some kv.2
  | none => none

/-- Truthiness test `task.metadata?.review_reason` used by the review column:
absent key is falsy, a present value is tested with JavaScript ToBoolean. -/
def reviewReasonTruthy (t : Task) : Bool :=
  match metaLookup t.metadata "review_reason" with
  | some v => jsTruthy v
  | none => false

/-- The accumulator of the `reviewCounts` reduce (board lines 552–569). -/
structure ReviewCounts where
  all : Nat
  approval_needed : Nat
  blocked : Nat

/-- One step of the `reviewCounts` reduce: a truthy `review_reason` counts as
approval_needed, anything else as blocked. -/
def reviewCountsStep (acc : ReviewCounts) (task : Task) : ReviewCounts :=
  if reviewReasonTruthy task then { acc with approval_needed := acc.approval_needed + 1 }
  else { acc with blocked := acc.blocked + 1 }

/-- The `reviewCounts` reduce over the review column, starting from
`{ all: columnTasks.length, approval_needed: 0, blocked: 0 }`. -/
def reviewCounts (columnTasks : List Task) : ReviewCounts :=
  columnTasks.foldl reviewCountsStep
    { all := columnTasks.length, approval_needed := 0, blocked := 0 }

/-- The `filteredTasks` computation of the review column (board lines
572–581): the selected sub-bucket filters by truthiness of `review_reason`;
selecting `all` shows the column unfiltered. -/
def filteredTasks (reviewBucket : ReviewBucket) (columnTasks : List Task) : List Task :=
  match reviewBucket with
  | .all => columnTasks
  | .approval_needed => columnTasks.filter (fun t => reviewReasonTruthy t)
  | .blocked => columnTasks.filter (fun t => !reviewReasonTruthy t)

/-- The drag payload set by `handleDragStart`:
`{ taskId: ..., status: ... }`, with fields optional because `handleDrop`
re-parses it from JSON and guards against missing fields. -/
structure DragPayload where
  taskId : Option String := none
  status : Option String := none

/-- The decision made by `handleDrop(status)` (board lines 505–521): `none`
when no `onTaskMove` call is issued — read-only board, empty or malformed
payload (`raw = none` models an empty `getData` result or a JSON parse
failure), falsy `taskId`/`status` fields, or a payload status equal to the
target column. Otherwise the `(taskId, targetStatus)` pair passed to
`onTaskMove`. -/
def dropMoveRequest (readOnly : Bool) (target : String) (raw : Option DragPayload) :
    Option (String × String) :=
  if readOnly then none
  else
    match raw with
    | none => none
    | some payload =>
      match payload.taskId, payload.status with
      | some tid, some st =>
          if tid = "" ∨ st = "" then none
          else if st = target then none
          else some (tid, target)
      | _, _ => none

/-- The optimistic update applied to one task by `handleTaskMove`
(tasks/page.tsx lines 56–72): the matching task gets the new status,
`started_at` is set to now only when the target is `in_progress` and it was
unset, `completed_at` is set to now when the target is `done`. -/
def moveOptimisticTask (now : Nat) (taskId : String) (newStatus : String) (t : Task) : Task :=
  if toString t.id = taskId then
    { t with
        status := newStatus
        started_at :=
          if newStatus = "in_progress" ∧ t.started_at = none then some now else t.started_at
        completed_at := if newStatus = "done" then some now else t.completed_at }
  else t

/-- The optimistic `setTasks(prev => prev.map(...))` of `handleTaskMove`. -/
def moveOptimistic (now : Nat) (taskId : String) (newStatus : String)
    (tasks : List Task) : List Task :=
  tasks.map (moveOptimisticTask now taskId newStatus)

/-- A PATCH body: only the keys present in the JSON object are `some`. -/
structure PatchBody where
  status : Option String := none
  started_at : Option Nat := none
  completed_at : Option Nat := none

/-- The body built by `handleTaskMove` (tasks/page.tsx lines 75–77):
`{ status: newStatus }`, plus `started_at = now` whenever the target is
`in_progress` (note: unconditionally, unlike the optimistic update), plus
`completed_at = now` whenever the target is `done`. -/
def movePatchBody (now : Nat) (newStatus : String) : PatchBody :=
  { status := some newStatus
    started_at := if newStatus = "in_progress" then some now else none
    completed_at := if newStatus = "done" then some now else none }

/-- The body sent by `TaskDetail.handleUpdateStatus` (task-detail.tsx lines
70–82): `{ status: newStatus }` and nothing else. -/
def detailPatchBody (newStatus : String) : PatchBody :=
  { status := some newStatus }

/-- Modelled from the spec: PostgREST `PATCH /tasks?id=eq.<id>` performs a
partial update (§4.1: `patchTask(id, partialFields)` accepts any subset of
mutable fields) — columns absent from the body keep their stored value. The
`/api/tasks/[id]` route forwards the body unchanged. -/
def applyPatchTask (body : PatchBody) (t : Task) : Task :=
  { t with
      status := body.status.getD t.status
      started_at :=
        match body.started_at with
        | some v => some v
        | none => t.started_at
      completed_at :=
        match body.completed_at with
        | some v => some v
        | none => t.completed_at }

/-- Applying a PATCH body to every row matching the id filter. -/
def patchStore (store : List Task) (id : Nat) (body : PatchBody) : List Task :=
  store.map fun t => if t.id = id then applyPatchTask body t else t

/-- One drop event on a column: the move request decided by `handleDrop`, and
when it fires, the optimistic relocation plus the PATCH request issued by
`handleTaskMove`. When no move request fires, the task list is untouched and
no repository call is made. -/
def boardDropStep (readOnly : Bool) (now : Nat) (target : String)
    (raw : Option DragPayload) (tasks : List Task) :
    List Task × Option (String × PatchBody) :=
  match dropMoveRequest readOnly target raw with
  | none => (tasks, none)
  | some (tid, st) => (moveOptimistic now tid st tasks, some (tid, movePatchBody now st))

/-- Boolean comparator realising `order=priority.desc,created_at.desc`: task
`a` may precede task `b` when `a`'s priority ranks strictly higher, or ranks
equal and `a` was created no earlier. -/
def listLe (a b : Task) : Bool :=
  decide (priorityRank b.priority < priorityRank a.priority)
  || (decide (priorityRank b.priority = priorityRank a.priority)
      && decide (b.created_at ≤ a.created_at))

/-- The ordering relation of the task list endpoint, as a proposition. -/
def listOrder (a b : Task) : Prop := listLe a b = true

instance : DecidableRel listOrder := fun a b =>
  inferInstanceAs (Decidable (listLe a b = true))

instance : IsTotal Task listOrder where
  total a b := by
    simp only [listOrder, listLe, Bool.or_eq_true, Bool.and_eq_true, decide_eq_true_eq]
    omega

instance : IsTrans Task listOrder where
  trans a b c hab hbc := by
    simp only [listOrder, listLe, Bool.or_eq_true, Bool.and_eq_true,
      decide_eq_true_eq] at hab hbc ⊢
    omega

/-- Modelled from the spec: `GET /api/tasks` (src/unnamed/part_014) proxies
`GET /tasks?order=priority.desc,created_at.desc`, which PostgreSQL evaluates
as a sort by priority descending (enum declaration order of
`src/db/init.sql`: low < medium < high < critical) then `created_at`
descending. The sort is modelled as an insertion sort; neither PostgreSQL nor
the spec promises stability for fully tied keys. -/
def listTasks (store : List Task) : List Task :=
  List.insertionSort listOrder store

/-- The JSON body of `POST /api/tasks` built by the create dialog. -/
structure CreateBody where
  title : String
  description : Option String := none
  status : String := "inbox"
  priority : TaskPriority := .medium

/-- Modelled from the spec: PostgREST `POST /tasks` (§6) inserts the row and
answers 201 with the created row; `src/db/init.sql` declares `title TEXT NOT
NULL` with no emptiness constraint and server-side defaults for id and
timestamps, so any string title — empty included — is accepted. The
`/api/tasks` proxy (src/unnamed/part_014) forwards the body unchanged and
performs no validation of its own. -/
def createTask (store : List Task) (body : CreateBody) (newId : Nat) (now : Nat) :
    List Task × Task :=
  let t : Task :=
    { id := newId
      title := body.title
      description := body.description
      status := body.status
      priority := body.priority
      created_at := now }
  (store ++ [t], t)

/-- JavaScript `String.prototype.trim`: strip leading and trailing
whitespace. -/
def jsTrim (s : String) : String :=
  ⟨((s.data.dropWhile Char.isWhitespace).reverse.dropWhile Char.isWhitespace).reverse⟩

/-- The submit guard of `CreateTaskDialog.handleSubmit` (create-task-dialog
lines 48–65): `if (!title.trim()) return` issues no request for an
empty-after-trim title; otherwise the posted body carries `title.trim()` and
`description.trim() || null`. -/
def submitCreateRequest (title description : String) (status : String)
    (priority : TaskPriority) : Option CreateBody :=
  if jsTrim title = "" then none
  else some
    { title := jsTrim title
      description := if jsTrim description = "" then none else some (jsTrim description)
      status := status
      priority := priority }

/-- Error taxonomy of spec §7. -/
inductive ApiError where
  | validation
  | notFound
  | conflict
  | transport

/-- Modelled from the spec: the store behind the `DELETE /api/tasks/:id`
route (route.ts lines 46–71) — PostgREST `DELETE /tasks?id=eq.<id>` (§6)
removes the matching rows and answers 204 whether or not any row matched;
the route maps every 2xx answer to `{ ok: true }` without inspecting how
many rows were deleted. -/
def deleteTaskRoute (store : List Task) (id : Nat) : List Task × Except ApiError Bool :=
  (store.filter (fun t => ¬ t.id = id), Except.ok true)

/-- The board-page state relevant to the poll refresh (tasks/page.tsx). -/
structure PageState where
  tasks : List Task := []
  selectedTask : Option Task := none
  showDetail : Bool := false
  error : Option String := none

/-- One successful poll refresh, `fetchTasks` in tasks/page.tsx lines 26–45:
replace `tasks` with the fetched data and clear the error; `selectedTask` is
replaced only when a task with the same id is still present
(`if (updated) setSelectedTask(updated)`); `showDetail` is not touched. -/
def fetchTasksSuccess (st : PageState) (data : List Task) : PageState :=
  let selectedTaskId := st.selectedTask.map Task.id
  let selected :=
    match selectedTaskId with
    | some sid =>
      match data.find? (fun t => t.id = sid) with
      | some updated => some updated
      | none => st.selectedTask
    | none => st.selectedTask
  { st with tasks := data, selectedTask := selected, error := none }

/-- TaskDetail renders nothing only when its `task` prop is null
(task-detail.tsx line 84: `if (!task) return null`). -/
def taskDetailRenders (task : Option Task) : Bool :=
  task.isSome

/-- Concrete board input: five tasks covering all four valid statuses. -/
def c1tasks : List Task :=
  [ { id := 1, title := "a", status := "done" },
    { id := 2, title := "b", status := "inbox" },
    { id := 3, title := "c", status := "in_progress" },
    { id := 4, title := "d", status := "review" },
    { id := 5, title := "e", status := "inbox" } ]

/-- Concrete task that has already been started (`started_at` set). -/
def c2task : Task :=
  { id := 1, title := "t", status := "review", started_at := some 100 }

/-- Concrete review task whose `review_reason` is present but falsy. -/
def c3task : Task :=
  { id := 7, title := "r", status := "review",
    metadata := [("review_reason", JsonVal.str "")] }

/-- Concrete drag payload: a task currently in `done`. -/
def c4payload : DragPayload :=
  { taskId := some "1", status := some "done" }

/-- Concrete stored task for the delete claims. -/
def c6task : Task :=
  { id := 1, title := "keep", status := "inbox" }

/-- Concrete store for the ordering claim: priorities
[low, critical, medium, critical] created at increasing timestamps. -/
def c7store : List Task :=
  [ { id := 1, title := "p1", status := "inbox", priority := .low, created_at := 1 },
    { id := 2, title := "p2", status := "inbox", priority := .critical, created_at := 2 },
    { id := 3, title := "p3", status := "inbox", priority := .medium, created_at := 3 },
    { id := 4, title := "p4", status := "inbox", priority := .critical, created_at := 4 } ]

/-- Concrete completed task for the completed_at preservation claim. -/
def c8task : Task :=
  { id := 4, title := "d", status := "done", completed_at := some 50 }

/-- Concrete task whose status collides with an `Object.prototype` member
name: the bucket lookup finds the inherited `toString` function, `??` does
not fall back, and the push throws. -/
def cProtoTask : Task :=
  { id := 9, title := "p", status := "toString" }

/-- Concrete board input mixing a valid status with an unrecognized — but
prototype-safe — status string. -/
def c10tasks : List Task :=
  [ { id := 1, title := "u", status := "archived" },
    { id := 2, title := "v", status := "review" } ]

/-- Concrete task currently open in the detail view. -/
def c9task : Task :=
  { id := 3, title := "gone", status := "inbox" }

/-- Concrete page state with the detail view open on `c9task`. -/
def c9state : PageState :=
  { tasks := [c9task], selectedTask := some c9task, showDetail := true }

theorem foldl_pushTask_inbox (ts : List Task) (b : Buckets) :
    (ts.foldl pushTask b).inbox
      = b.inbox ++ ts.filter (fun t => bucketKey t.status = StatusKey.inbox) := by
  induction ts generalizing b with
  | nil => simp
  | cons t ts ih =>
    rw [List.foldl_cons, ih, List.filter_cons]
    cases h : bucketKey t.status <;>
      simp [pushTask, h]

theorem foldl_pushTask_in_progress (ts : List Task) (b : Buckets) :
    (ts.foldl pushTask b).in_progress
      = b.in_progress ++ ts.filter (fun t => bucketKey t.status = StatusKey.in_progress) := by
  induction ts generalizing b with
  | nil => simp
  | cons t ts ih =>
    rw [List.foldl_cons, ih, List.filter_cons]
    cases h : bucketKey t.status <;>
      simp [pushTask, h]

theorem foldl_pushTask_review (ts : List Task) (b : Buckets) :
    (ts.foldl pushTask b).review
      = b.review ++ ts.filter (fun t => bucketKey t.status = StatusKey.review) := by
  induction ts generalizing b with
  | nil => simp
  | cons t ts ih =>
    rw [List.foldl_cons, ih, List.filter_cons]
    cases h : bucketKey t.status <;>
      simp [pushTask, h]

theorem foldl_pushTask_done (ts : List Task) (b : Buckets) :
    (ts.foldl pushTask b).done
      = b.done ++ ts.filter (fun t => bucketKey t.status = StatusKey.done) := by
  induction ts generalizing b with
  | nil => simp
  | cons t ts ih =>
    rw [List.foldl_cons, ih, List.filter_cons]
    cases h : bucketKey t.status <;>
      simp [pushTask, h]

theorem groupByStatus_inbox (ts : List Task) :
    (groupByStatus ts).inbox
      = ts.filter (fun t => bucketKey t.status = StatusKey.inbox) := by
  simpa [groupByStatus] using foldl_pushTask_inbox ts ⟨[], [], [], []⟩

theorem groupByStatus_in_progress (ts : List Task) :
    (groupByStatus ts).in_progress
      = ts.filter (fun t => bucketKey t.status = StatusKey.in_progress) := by
  simpa [groupByStatus] using foldl_pushTask_in_progress ts ⟨[], [], [], []⟩

theorem groupByStatus_review (ts : List Task) :
    (groupByStatus ts).review
      = ts.filter (fun t => bucketKey t.status = StatusKey.review) := by
  simpa [groupByStatus] using foldl_pushTask_review ts ⟨[], [], [], []⟩

theorem groupByStatus_done (ts : List Task) :
    (groupByStatus ts).done
      = ts.filter (fun t => bucketKey t.status = StatusKey.done) := by
  simpa [groupByStatus] using foldl_pushTask_done ts ⟨[], [], [], []⟩

theorem filter_bucketKey_perm (ts : List Task) :
    List.Perm
      (ts.filter (fun t => bucketKey t.status = StatusKey.inbox)
        ++ ts.filter (fun t => bucketKey t.status = StatusKey.in_progress)
        ++ ts.filter (fun t => bucketKey t.status = StatusKey.review)
        ++ ts.filter (fun t => bucketKey t.status = StatusKey.done))
      ts := by
  induction ts with
  | nil => simp
  | cons t ts ih =>
    rw [List.filter_cons, List.filter_cons, List.filter_cons, List.filter_cons]
    cases h : bucketKey t.status
    · simpa [h] using ih.cons t
    · simp only [h, decide_eq_true_eq, reduceCtorEq, if_false, if_true, decide_True,
        List.append_assoc, List.cons_append]
      exact List.perm_middle.trans
        ((by simpa [List.append_assoc] using ih : List.Perm _ ts).cons t)
    · simp only [h, decide_eq_true_eq, reduceCtorEq, if_false, if_true, decide_True,
        List.append_assoc, List.cons_append]
      rw [← List.append_assoc]
      exact List.perm_middle.trans
        ((by simpa [List.append_assoc] using ih : List.Perm _ ts).cons t)
    · simp only [h, decide_eq_true_eq, reduceCtorEq, if_false, if_true, decide_True,
        List.append_assoc, List.cons_append]
      rw [← List.append_assoc, ← List.append_assoc]
      exact List.perm_middle.trans
        ((by simpa [List.append_assoc] using ih : List.Perm _ ts).cons t)

theorem bucketKey_eq_inbox (s : String) :
    (bucketKey s = StatusKey.inbox)
      ↔ ¬(s = "in_progress" ∨ s = "review" ∨ s = "done") := by
  unfold bucketKey
  split_ifs with h1 h2 h3 <;> simp_all

theorem bucketKey_eq_in_progress (s : String) :
    (bucketKey s = StatusKey.in_progress) ↔ s = "in_progress" := by
  unfold bucketKey
  split_ifs with h1 h2 h3 <;> simp_all

theorem bucketKey_eq_review (s : String) :
    (bucketKey s = StatusKey.review) ↔ s = "review" := by
  unfold bucketKey
  split_ifs with h1 h2 h3 <;> simp_all

theorem bucketKey_eq_done (s : String) :
    (bucketKey s = StatusKey.done) ↔ s = "done" := by
  unfold bucketKey
  split_ifs with h1 h2 h3 <;> simp_all

/-- C1: for every finite input sequence of tasks whose statuses are among
the four column keys, the board grouping partitions the tasks by status:
each bucket equals the stable filter of the input on its status (relative
input order preserved, no re-sorting), and the concatenation of the four
buckets is a permutation of the input, so every task appears in exactly one
bucket — nothing duplicated, nothing lost. -/
theorem groupByStatus_partition (tasks : List Task)
    (hvalid : ∀ t ∈ tasks, t.status = "inbox" ∨ t.status = "in_progress"
      ∨ t.status = "review" ∨ t.status = "done") :
    (groupByStatus tasks).inbox = tasks.filter (fun t => t.status = "inbox")
    ∧ (groupByStatus tasks).in_progress = tasks.filter (fun t => t.status = "in_progress")
    ∧ (groupByStatus tasks).review = tasks.filter (fun t => t.status = "review")
    ∧ (groupByStatus tasks).done = tasks.filter (fun t => t.status = "done")
    ∧ List.Perm
        ((groupByStatus tasks).inbox ++ (groupByStatus tasks).in_progress
          ++ (groupByStatus tasks).review ++ (groupByStatus tasks).done)
        tasks := by
  refine ⟨?_, ?_, ?_, ?_, ?_⟩
  · rw [groupByStatus_inbox]
    refine List.filter_congr ?_
    intro t ht
    rcases hvalid t ht with h | h | h | h <;> rw [h] <;> decide
  · rw [groupByStatus_in_progress]
    refine List.filter_congr ?_
    intro t ht
    rcases hvalid t ht with h | h | h | h <;> rw [h] <;> decide
  · rw [groupByStatus_review]
    refine List.filter_congr ?_
    intro t ht
    rcases hvalid t ht with h | h | h | h <;> rw [h] <;> decide
  · rw [groupByStatus_done]
    refine List.filter_congr ?_
    intro t ht
    rcases hvalid t ht with h | h | h | h <;> rw [h] <;> decide
  · rw [groupByStatus_inbox, groupByStatus_in_progress, groupByStatus_review,
      groupByStatus_done]
    exact filter_bucketKey_perm tasks

/-- Witness for C1: the partition property evaluated at a concrete board of
five tasks covering all four statuses. -/
theorem groupByStatus_partition_witness :
    (groupByStatus c1tasks).inbox = c1tasks.filter (fun t => t.status = "inbox")
    ∧ (groupByStatus c1tasks).in_progress
        = c1tasks.filter (fun t => t.status = "in_progress")
    ∧ (groupByStatus c1tasks).review = c1tasks.filter (fun t => t.status = "review")
    ∧ (groupByStatus c1tasks).done = c1tasks.filter (fun t => t.status = "done")
    ∧ List.Perm
        ((groupByStatus c1tasks).inbox ++ (groupByStatus c1tasks).in_progress
          ++ (groupByStatus c1tasks).review ++ (groupByStatus c1tasks).done)
        c1tasks :=
  groupByStatus_partition c1tasks (by decide)

theorem pushTaskChecked_eq (b : Buckets) (t : Task)
    (h : t.status ∉ protoProps) :
    pushTaskChecked b t = some (pushTask b t) := by
  have hc : protoProps.contains t.status = false := by
    simpa using h
  unfold pushTaskChecked pushTask bucketLookup bucketKey
  split_ifs <;> simp_all

theorem foldlM_pushTaskChecked (ts : List Task) (b : Buckets)
    (h : ∀ t ∈ ts, t.status ∉ protoProps) :
    ts.foldlM pushTaskChecked b = some (ts.foldl pushTask b) := by
  induction ts generalizing b with
  | nil => rfl
  | cons t ts ih =>
    rw [List.foldlM_cons, pushTaskChecked_eq b t (h t (List.mem_cons_self t ts))]
    rw [List.foldl_cons]
    exact ih (pushTask b t) (fun u hu => h u (List.mem_cons_of_mem t hu))

/-- C10 counterexample: a task whose status is the unrecognized string
"toString" — none of the four known statuses — makes the grouping fail: the
lookup `buckets["toString"]` finds the member inherited from
`Object.prototype`, the `??` fallback does not trigger, and the push throws
a TypeError (modelled as `none`), so the task is not placed in the inbox
bucket and the grouping is not total. -/
theorem groupByStatus_proto_counterexample :
    ¬(cProtoTask.status = "inbox" ∨ cProtoTask.status = "in_progress"
      ∨ cProtoTask.status = "review" ∨ cProtoTask.status = "done")
    ∧ groupByStatusExact [cProtoTask] = none :=
  ⟨by decide, rfl⟩

/-- C10 amended: the grouping is total over status strings that do not name
an `Object.prototype` member: on such inputs the exact model succeeds and
returns the four buckets of `groupByStatus`, a task whose status is none of
in_progress/review/done is placed in the inbox bucket, the other three
buckets are the exact status filters, and the four buckets together are a
permutation of the input — no failure, no dropped task. (For a status string
naming an `Object.prototype` member the lookup yields a non-nullish
inherited value and the push throws a TypeError.) -/
theorem groupByStatus_total_amended (tasks : List Task)
    (hsafe : ∀ t ∈ tasks, t.status ∉ protoProps) :
    groupByStatusExact tasks = some (groupByStatus tasks)
    ∧ (groupByStatus tasks).inbox
      = tasks.filter
          (fun t => ¬(t.status = "in_progress" ∨ t.status = "review" ∨ t.status = "done"))
    ∧ (groupByStatus tasks).in_progress = tasks.filter (fun t => t.status = "in_progress")
    ∧ (groupByStatus tasks).review = tasks.filter (fun t => t.status = "review")
    ∧ (groupByStatus tasks).done = tasks.filter (fun t => t.status = "done")
    ∧ List.Perm
        ((groupByStatus tasks).inbox ++ (groupByStatus tasks).in_progress
          ++ (groupByStatus tasks).review ++ (groupByStatus tasks).done)
        tasks := by
  refine ⟨?_, ?_, ?_, ?_, ?_, ?_⟩
  · exact foldlM_pushTaskChecked tasks ⟨[], [], [], []⟩ hsafe
  · rw [groupByStatus_inbox]
    refine List.filter_congr ?_
    intro t _
    exact decide_eq_decide.mpr (bucketKey_eq_inbox t.status)
  · rw [groupByStatus_in_progress]
    refine List.filter_congr ?_
    intro t _
    exact decide_eq_decide.mpr (bucketKey_eq_in_progress t.status)
  · rw [groupByStatus_review]
    refine List.filter_congr ?_
    intro t _
    exact decide_eq_decide.mpr (bucketKey_eq_review t.status)
  · rw [groupByStatus_done]
    refine List.filter_congr ?_
    intro t _
    exact decide_eq_decide.mpr (bucketKey_eq_done t.status)
  · rw [groupByStatus_inbox, groupByStatus_in_progress, groupByStatus_review,
      groupByStatus_done]
    exact filter_bucketKey_perm tasks

/-- Witness for C10 at a concrete board mixing a valid status with an
unrecognized, prototype-safe status string. -/
theorem groupByStatus_total_witness :
    groupByStatusExact c10tasks = some (groupByStatus c10tasks)
    ∧ (groupByStatus c10tasks).inbox
      = c10tasks.filter
          (fun t => ¬(t.status = "in_progress" ∨ t.status = "review" ∨ t.status = "done"))
    ∧ (groupByStatus c10tasks).in_progress
        = c10tasks.filter (fun t => t.status = "in_progress")
    ∧ (groupByStatus c10tasks).review = c10tasks.filter (fun t => t.status = "review")
    ∧ (groupByStatus c10tasks).done = c10tasks.filter (fun t => t.status = "done")
    ∧ List.Perm
        ((groupByStatus c10tasks).inbox ++ (groupByStatus c10tasks).in_progress
          ++ (groupByStatus c10tasks).review ++ (groupByStatus c10tasks).done)
        c10tasks :=
  groupByStatus_total_amended c10tasks (by decide)

theorem dropMoveRequest_same (readOnly : Bool) (target : String) (p : DragPayload)
    (h : p.status = some target) :
    dropMoveRequest readOnly target (some p) = none := by
  rcases p with ⟨ptid, pst⟩
  simp only at h
  subst h
  cases ptid <;> simp [dropMoveRequest]

/-- C4: a drop whose payload status equals the target column's status is a
no-op — no repository PATCH is issued and the board's task list is left
unchanged — and a move request is only ever issued when the payload status
differs from the target. -/
theorem dropNoop (readOnly : Bool) (now : Nat) (target : String) (p : DragPayload)
    (tasks : List Task) :
    (p.status = some target →
      boardDropStep readOnly now target (some p) tasks = (tasks, none))
    ∧ (∀ tid st, dropMoveRequest readOnly target (some p) = some (tid, st) →
        p.status ≠ some target) := by
  constructor
  · intro hsame
    unfold boardDropStep
    rw [dropMoveRequest_same readOnly target p hsame]
  · intro tid st hfire hsame
    rw [dropMoveRequest_same readOnly target p hsame] at hfire
    exact Option.noConfusion hfire

/-- Witness for C4: dropping a task already in `done` onto the Done column
changes nothing and issues no PATCH. -/
theorem dropNoop_witness :
    boardDropStep false 0 "done" (some c4payload) [] = ([], none) :=
  (dropNoop false 0 "done" c4payload []).1 rfl

/-- C2: behaviour of the code at a task that already has `started_at`:
moving task 1 — whose `started_at` is 100 — into `in_progress` at time 200
keeps `started_at = 100` in the optimistic local state, but the PATCH body
carries `started_at = 200` unconditionally, so the stored row is
overwritten. -/
theorem moveStartedAt_divergence :
    (moveOptimistic 200 "1" "in_progress" [c2task]).map Task.started_at = [some 100]
    ∧ (movePatchBody 200 "in_progress").started_at = some 200
    ∧ (patchStore [c2task] 1 (movePatchBody 200 "in_progress")).map Task.started_at
        = [some 200] :=
  ⟨rfl, rfl, rfl⟩

/-- C8: `completed_at`, once set, is never cleared by any move out of
`done`: the optimistic update, the move PATCH body and the detail-panel
PATCH body never null it, and for any target status other than `done` they
leave it exactly unchanged. -/
theorem completedAt_never_cleared (now : Nat) (taskId newStatus : String) (t : Task)
    (hset : t.completed_at ≠ none) :
    (moveOptimisticTask now taskId newStatus t).completed_at ≠ none
    ∧ (applyPatchTask (movePatchBody now newStatus) t).completed_at ≠ none
    ∧ (applyPatchTask (detailPatchBody newStatus) t).completed_at = t.completed_at
    ∧ (newStatus ≠ "done" →
        (moveOptimisticTask now taskId newStatus t).completed_at = t.completed_at
        ∧ (applyPatchTask (movePatchBody now newStatus) t).completed_at
            = t.completed_at) := by
  unfold moveOptimisticTask applyPatchTask movePatchBody detailPatchBody
  split_ifs <;> simp_all

/-- Witness for C8: moving the completed task 4 back to `inbox` keeps its
`completed_at` set and unchanged. -/
theorem completedAt_never_cleared_witness :
    (applyPatchTask (movePatchBody 300 "inbox") c8task).completed_at ≠ none
    ∧ (moveOptimisticTask 300 "4" "inbox" c8task).completed_at = c8task.completed_at :=
  ⟨(completedAt_never_cleared 300 "4" "inbox" c8task (by decide)).2.1,
    ((completedAt_never_cleared 300 "4" "inbox" c8task (by decide)).2.2.2 (by decide)).1⟩

/-- C7: the task list endpoint orders by priority descending (critical >
high > medium > low) then `created_at` descending: the result is sorted by
that ordering and is a permutation of the store; at the concrete store with
priorities [low, critical, medium, critical] created at increasing times,
the result is both criticals first — most recent first — then the medium,
then the low (ids [4, 2, 3, 1]). -/
theorem listTasks_ordering :
    (∀ store : List Task,
      List.Sorted listOrder (listTasks store) ∧ List.Perm (listTasks store) store)
    ∧ (listTasks c7store).map Task.id = [4, 2, 3, 1] :=
  ⟨fun store =>
    ⟨List.sorted_insertionSort listOrder store, List.perm_insertionSort listOrder store⟩,
    rfl⟩

/-- C5 counterexample: a direct createTask with an empty title mutates the
store and raises no error — the store gains one row carrying the empty
title, contradicting "fails with ValidationError and performs no
mutation". -/
theorem createTask_empty_title_counterexample :
    ((createTask [] { title := "" } 1 0).1).length = 1
    ∧ ((createTask [] { title := "" } 1 0).2).title = "" :=
  ⟨rfl, rfl⟩

/-- C5 amended: an empty or whitespace-only title never reaches the
repository through the create dialog — the submit guard issues no request,
so no mutation occurs — but no ValidationError is raised anywhere: the
server-side createTask accepts any title, empty included, and appends the
row. -/
theorem createTask_empty_title_amended (title description status : String)
    (priority : TaskPriority) (store : List Task) (body : CreateBody)
    (newId now : Nat) (hempty : jsTrim title = "") :
    submitCreateRequest title description status priority = none
    ∧ ((createTask store body newId now).1).length = store.length + 1
    ∧ (createTask store body newId now).1
        = store ++ [(createTask store body newId now).2] := by
  refine ⟨?_, ?_, rfl⟩
  · unfold submitCreateRequest
    rw [if_pos hempty]
  · simp [createTask]

/-- Witness for C5 at a whitespace-only title. -/
theorem createTask_empty_title_witness :
    submitCreateRequest "   " "" "inbox" TaskPriority.medium = none
    ∧ ((createTask [] { title := "" } 5 9).1).length = ([] : List Task).length + 1 :=
  ⟨(createTask_empty_title_amended "   " "" "inbox" .medium [] { title := "" } 5 9
      (by decide)).1,
    (createTask_empty_title_amended "   " "" "inbox" .medium [] { title := "" } 5 9
      (by decide)).2.1⟩

/-- C6 counterexample: deleting the nonexistent id 99 from a store holding
only id 1 is reported as success with the store unchanged — no NotFoundError
is surfaced. -/
theorem deleteTask_missing_id_counterexample :
    deleteTaskRoute [c6task] 99 = ([c6task], Except.ok true) :=
  rfl

/-- C6 amended: the delete route always reports success: for an existing id
it removes every matching task and returns ok; for a nonexistent id it
leaves the store unchanged and still returns ok, surfacing no
NotFoundError. -/
theorem deleteTask_amended (store : List Task) (id : Nat) :
    (deleteTaskRoute store id).2 = Except.ok true
    ∧ (∀ t ∈ (deleteTaskRoute store id).1, t.id ≠ id)
    ∧ ((∀ t ∈ store, t.id ≠ id) → (deleteTaskRoute store id).1 = store) := by
  refine ⟨rfl, ?_, ?_⟩
  · intro t ht
    simp only [deleteTaskRoute, List.mem_filter, decide_eq_true_eq] at ht
    exact ht.2
  · intro h
    simp only [deleteTaskRoute]
    exact List.filter_eq_self.mpr (fun t ht => by simpa using h t ht)

/-- Witness for C6: deleting id 99 from the store holding only id 1 returns
ok and leaves the store unchanged. -/
theorem deleteTask_amended_witness :
    (deleteTaskRoute [c6task] 99).2 = Except.ok true
    ∧ (deleteTaskRoute [c6task] 99).1 = [c6task] :=
  ⟨(deleteTask_amended [c6task] 99).1, (deleteTask_amended [c6task] 99).2.2 (by decide)⟩

/-- C9 counterexample: with the detail view open on task 3 and a refresh
whose fetched list no longer contains it, the detail view is still open and
still renders the stale task — it does not close. -/
theorem detailView_counterexample :
    (fetchTasksSuccess c9state []).showDetail = true
    ∧ (fetchTasksSuccess c9state []).selectedTask = some c9task
    ∧ taskDetailRenders (fetchTasksSuccess c9state []).selectedTask = true :=
  ⟨rfl, rfl, rfl⟩

/-- C9 amended: when the open task's id is no longer present in the fetched
data, the refresh neither errors nor closes the detail view: the task list
is replaced, the stale selected task is kept and remains rendered, and
`showDetail` is untouched. -/
theorem fetchTasks_stale_detail (st : PageState) (data : List Task) (t : Task)
    (hsel : st.selectedTask = some t) (hmiss : ∀ u ∈ data, u.id ≠ t.id) :
    (fetchTasksSuccess st data).tasks = data
    ∧ (fetchTasksSuccess st data).selectedTask = some t
    ∧ (fetchTasksSuccess st data).showDetail = st.showDetail
    ∧ taskDetailRenders (fetchTasksSuccess st data).selectedTask = true := by
  have hfind : data.find? (fun u => u.id = t.id) = none :=
    List.find?_eq_none.mpr (fun u hu => by simpa using hmiss u hu)
  simp [fetchTasksSuccess, taskDetailRenders, hsel, hfind]

/-- Witness for C9: refreshing with an empty fetched list keeps the stale
task selected and the detail view open. -/
theorem fetchTasks_stale_detail_witness :
    (fetchTasksSuccess c9state []).selectedTask = some c9task
    ∧ (fetchTasksSuccess c9state []).showDetail = c9state.showDetail :=
  ⟨(fetchTasks_stale_detail c9state [] c9task rfl (by decide)).2.1,
    (fetchTasks_stale_detail c9state [] c9task rfl (by decide)).2.2.1⟩

theorem foldl_reviewCountsStep (cols : List Task) (acc : ReviewCounts) :
    cols.foldl reviewCountsStep acc
      = { all := acc.all
          approval_needed :=
            acc.approval_needed + cols.countP (fun t => reviewReasonTruthy t)
          blocked := acc.blocked + cols.countP (fun t => !reviewReasonTruthy t) } := by
  induction cols generalizing acc with
  | nil => simp
  | cons t ts ih =>
    rw [List.foldl_cons, ih]
    unfold reviewCountsStep
    rcases acc with ⟨na, nap, nb⟩
    by_cases h : reviewReasonTruthy t = true <;>
      simp [h, List.countP_cons, ReviewCounts.mk.injEq] <;> omega

/-- C3 counterexample: a review task whose `metadata.review_reason` is
present but falsy (the empty string) is placed in the `blocked` sub-bucket
even though `review_reason` is not absent — "blocked exactly when absent"
fails on the code. -/
theorem reviewBlocked_counterexample :
    filteredTasks ReviewBucket.blocked [c3task] = [c3task]
    ∧ metaLookup c3task.metadata "review_reason" = some (JsonVal.str "") :=
  ⟨rfl, rfl⟩

/-- C3 amended: within the review column, a task is in `approval_needed`
exactly when `metadata.review_reason` is present and truthy, and in
`blocked` exactly when it is absent or not truthy, so each review task
belongs to exactly one of the two; the `all` sub-bucket and count always
equal the full review bucket regardless of the selected sub-filter; the
classification only selects from the input (a sublist), mutating no task
data. -/
theorem review_subbuckets (cols : List Task) (t : Task) (ht : t ∈ cols) :
    (t ∈ filteredTasks ReviewBucket.approval_needed cols
        ↔ reviewReasonTruthy t = true)
    ∧ (t ∈ filteredTasks ReviewBucket.blocked cols ↔ reviewReasonTruthy t = false)
    ∧ ¬(t ∈ filteredTasks ReviewBucket.approval_needed cols
        ∧ t ∈ filteredTasks ReviewBucket.blocked cols)
    ∧ filteredTasks ReviewBucket.all cols = cols
    ∧ (reviewCounts cols).all = cols.length
    ∧ (reviewCounts cols).approval_needed + (reviewCounts cols).blocked = cols.length
    ∧ (∀ b : ReviewBucket, (filteredTasks b cols).Sublist cols) := by
  refine ⟨?_, ?_, ?_, rfl, ?_, ?_, ?_⟩
  · simp [filteredTasks, List.mem_filter, ht]
  · simp [filteredTasks, List.mem_filter, ht, Bool.not_eq_true']
  · rintro ⟨h1, h2⟩
    simp only [filteredTasks, List.mem_filter, Bool.not_eq_true'] at h1 h2
    rw [h1.2] at h2
    exact Bool.noConfusion h2.2
  · unfold reviewCounts
    rw [foldl_reviewCountsStep]
  · unfold reviewCounts
    rw [foldl_reviewCountsStep]
    simp only [Nat.zero_add]
    have hlen := List.length_eq_countP_add_countP (fun t => reviewReasonTruthy t) cols
    simpa using hlen.symm
  · intro b
    cases b with
    | all => exact List.Sublist.refl cols
    | approval_needed => exact List.filter_sublist cols
    | blocked => exact List.filter_sublist cols

/-- Witness for C3 at the singleton review column holding `c3task`. -/
theorem review_subbuckets_witness :
    (c3task ∈ filteredTasks ReviewBucket.approval_needed [c3task]
        ↔ reviewReasonTruthy c3task = true)
    ∧ (c3task ∈ filteredTasks ReviewBucket.blocked [c3task]
        ↔ reviewReasonTruthy c3task = false)
    ∧ ¬(c3task ∈ filteredTasks ReviewBucket.approval_needed [c3task]
        ∧ c3task ∈ filteredTasks ReviewBucket.blocked [c3task])
    ∧ filteredTasks ReviewBucket.all [c3task] = [c3task]
    ∧ (reviewCounts [c3task]).all = [c3task].length
    ∧ (reviewCounts [c3task]).approval_needed + (reviewCounts [c3task]).blocked
        = [c3task].length
    ∧ (∀ b : ReviewBucket, (filteredTasks b [c3task]).Sublist [c3task]) :=
  review_subbuckets [c3task] c3task (List.mem_singleton_self c3task)

end MissionControl
